import Mathlib

/-!
Verification development for the `wad-rs` WAD-archive parser.

This file gives a shallow embedding of the core parsing pipeline of the
repository — the header reader (`src/header.rs`, `src/wad.rs`), the
directory-entry reader (`src/directory.rs`), the tokenizer
(`src/tokenizer.rs`) and the namespace/map indexer (`src/index.rs` with
the collection type of `src/lumps.rs`) — and proves theorems relating the
embedded code to its natural-language specification.

Conventions of the embedding:
- byte buffers are `List Nat`, each element a byte value below 256
  (they model Rust `&[u8]` slices);
- Rust `usize`/`i32` arithmetic is modelled on `Nat` with explicit
  `% 2 ^ 64` / `% 2 ^ 32` where the source can wrap in release mode;
- Rust `String` names are modelled as `List Char` at the indexing level
  and as byte lists at the tokenizer level;
- fallible Rust functions (returning `Result<_, Box<dyn Error>>`) are
  modelled with `Except` or a dedicated outcome inductive; the distinct
  error strings of the source are modelled by constructors;
- a Rust panic (out-of-range slice index) is modelled as an explicit
  `panicked` outcome, distinct from every `Err` return.
-/

namespace WadRs

/-- Lump and namespace names at the indexing level (`String` in the source). -/
abbrev Name := List Char

/-- Shorthand to write a `Name` from a string literal. -/
def nm (s : String) : Name := s.toList

/-- Models `DirectoryRef` from `src/directory.rs`: a `(start, end, name_offset)`
triple of `usize` fields (the Rust field `end` is named `endPos` here since
`end` is a Lean keyword). -/
structure DirectoryRef where
  start : Nat
  endPos : Nat
  nameOffset : Nat
deriving DecidableEq, Repr

/-- Models `LumpToken` as consumed by `parse_tokens` in `src/index.rs`
(the unit tests of `src/index.rs` construct it with a `String` name and a
`DirectoryRef` payload). -/
inductive LumpToken where
  | lump (name : Name) (ref : DirectoryRef)
  | markerStart (name : Name)
  | markerEnd (name : Name)
  | mapMarker (name : Name)
deriving DecidableEq, Repr

/-- The distinct error values produced by the indexer; the source returns
boxed error strings, one constructor here per distinct `format!` message:
`"Sub-collection with name '{}' already exists"` (`src/lumps.rs`) and
`"Mismatched end marker: expected namespace '{}', found '{}'"`
(`src/index.rs`). -/
inductive ParseError where
  | duplicateCollection (name : Name)
  | mismatchedEndMarker (expected found : Name)
deriving DecidableEq, Repr

/-- Lookup in an association list; models `HashMap::get`. -/
def alGet {α : Type} (m : List (Name × α)) (k : Name) : Option α :=
  match m with
  | [] => none
  | (k', v) :: rest => if k' = k then some v else alGet rest k

/-- Insertion into an association list, replacing an existing binding;
models `HashMap::insert`'s key/value semantics. -/
def alInsert {α : Type} (m : List (Name × α)) (k : Name) (v : α) :
    List (Name × α) :=
  match m with
  | [] => [(k, v)]
  | (k', v') :: rest =>
      if k' = k then (k, v) :: rest else (k', v') :: alInsert rest k v

/-- Models `HashMap::contains_key`. -/
def alContains {α : Type} (m : List (Name × α)) (k : Name) : Bool :=
  (alGet m k).isSome

/-- Models `LumpCollection` from `src/lumps.rs`: a map of lumps and a map
of sub-collections (`HashMap<String, DirectoryRef>` and
`HashMap<String, LumpCollection>`, modelled as association lists). -/
inductive LumpCollection where
  | mk (lumps : List (Name × DirectoryRef))
       (collections : List (Name × LumpCollection))

/-- The `lumps` field of a `LumpCollection`. -/
def LumpCollection.lumps : LumpCollection → List (Name × DirectoryRef)
  | .mk l _ => l

/-- The `collections` field of a `LumpCollection`. -/
def LumpCollection.collections : LumpCollection → List (Name × LumpCollection)
  | .mk _ c => c

/-- Models `LumpCollection::default()`: both maps empty. -/
def LumpCollection.empty : LumpCollection := .mk [] []

/-- Models `LumpCollection::add_lump` (`src/lumps.rs` lines 15–18): a plain
`HashMap::insert`; the source's `Result` return is always `Ok(())`, so the
operation is modelled as total. -/
def LumpCollection.addLump : LumpCollection → Name → DirectoryRef →
    LumpCollection
  | .mk ls cs, n, r => .mk (alInsert ls n r) cs

/-- Models `LumpCollection::add_collection` (`src/lumps.rs` lines 24–30):
fails when a sub-collection with the same name already exists, otherwise
inserts. -/
def LumpCollection.addCollection : LumpCollection → Name → LumpCollection →
    Except ParseError LumpCollection
  | .mk ls cs, n, c =>
      if alContains cs n then .error (.duplicateCollection n)
      else .ok (.mk ls (alInsert cs n c))

/-- Models `LumpCollection::get_lump`. -/
def LumpCollection.getLump (c : LumpCollection) (n : Name) :
    Option DirectoryRef :=
  alGet c.lumps n

/-- Models `LumpCollection::get_collection`. -/
def LumpCollection.getCollection (c : LumpCollection) (n : Name) :
    Option LumpCollection :=
  alGet c.collections n

/-- Models Rust's `str::replace(name, "_START", "")` as used by
`parse_tokens` and `parse_namespace` in `src/index.rs`: every (left-to-right,
non-overlapping) occurrence of `"_START"` is removed. -/
def removeSTART : Name → Name
  | '_' :: 'S' :: 'T' :: 'A' :: 'R' :: 'T' :: rest => removeSTART rest
  | c :: rest => c :: removeSTART rest
  | [] => []

/-- Models Rust's `str::replace(name, "_END", "")` as used by
`parse_namespace` in `src/index.rs`: every occurrence of `"_END"` is
removed. -/
def removeEND : Name → Name
  | '_' :: 'E' :: 'N' :: 'D' :: rest => removeEND rest
  | c :: rest => c :: removeEND rest
  | [] => []

/-- The reserved map-lump names matched inline by `parse_map`
(`src/index.rs` lines 76–88). -/
def mapLumpNames : List Name :=
  [nm "THINGS", nm "LINEDEFS", nm "SIDEDEFS", nm "VERTEXES", nm "SECTORS",
   nm "SSECTORS", nm "SEGS", nm "NODES", nm "REJECT", nm "BLOCKMAP"]

/-- The `matches!` test of `parse_map`: is the lump name one of the
reserved map-lump names. -/
def isMapLump (n : Name) : Bool :=
  decide (n ∈ mapLumpNames)

/-- Models the loop of `parse_map` (`src/index.rs` lines 72–98), entered
after the initial `iter.next()` has consumed the map marker. Consumes
consecutive recognized map lumps; returns the accumulated collection and
the remaining tokens, the breaking token (if any) left unconsumed. The
subtype on the remainder records that the loop never grows the stream; it
is needed only for the termination argument of the root loop below and is
erased by `mapLoop`. -/
def mapLoopSub (acc : LumpCollection) :
    (ts : List LumpToken) →
      LumpCollection × { r : List LumpToken // r.length ≤ ts.length }
  | [] => (acc, ⟨[], Nat.le_refl 0⟩)
  | .mapMarker n :: rest =>
      (acc, ⟨.mapMarker n :: rest, Nat.le_refl _⟩)
  | .lump n r :: rest =>
      if isMapLump n then
        let q := mapLoopSub (acc.addLump n r) rest
        (q.1, ⟨q.2.val, Nat.le_succ_of_le q.2.property⟩)
      else (acc, ⟨.lump n r :: rest, Nat.le_refl _⟩)
  | .markerStart n :: rest =>
      (acc, ⟨.markerStart n :: rest, Nat.le_refl _⟩)
  | .markerEnd n :: rest =>
      (acc, ⟨.markerEnd n :: rest, Nat.le_refl _⟩)

/-- The loop of `parse_map` with the termination bookkeeping erased. -/
def mapLoop (acc : LumpCollection) (ts : List LumpToken) :
    LumpCollection × List LumpToken :=
  ((mapLoopSub acc ts).1, (mapLoopSub acc ts).2.val)

/-- Models the loop of `parse_namespace` (`src/index.rs` lines 42–65),
entered after the initial `iter.next()` has consumed the start marker.
The subtype on the returned remainder records that the loop never grows
the token stream; it is needed for the termination argument and is erased
by `nsLoop` below. On a matching end marker the loop breaks with the end
marker still unconsumed (the caller's own `iter.next()` removes it). -/
def nsLoopSub (ns : Name) (acc : LumpCollection) (ts : List LumpToken) :
    Except ParseError
      (LumpCollection × { r : List LumpToken // r.length ≤ ts.length }) :=
  match ts with
  | [] => .ok (acc, ⟨[], Nat.le_refl 0⟩)
  | .lump n r :: rest =>
      match nsLoopSub ns (acc.addLump n r) rest with
      | .error e => .error e
      | .ok p => .ok (p.1, ⟨p.2.val, Nat.le_succ_of_le p.2.property⟩)
  | .markerStart n :: rest =>
      match nsLoopSub (removeSTART n) .empty rest with
      | .error e => .error e
      | .ok p =>
          match acc.addCollection n p.1 with
          | .error e => .error e
          | .ok acc' =>
              match nsLoopSub ns acc' (p.2.val.drop 1) with
              | .error e => .error e
              | .ok q => .ok (q.1, ⟨q.2.val, by
                  have h1 := p.2.property
                  have h2 := q.2.property
                  have h3 := List.length_drop 1 p.2.val
                  simp only [List.length_cons]
                  omega⟩)
  | .markerEnd n :: rest =>
      if removeEND n = ns then
        .ok (acc, ⟨.markerEnd n :: rest, Nat.le_refl _⟩)
      else
        .error (.mismatchedEndMarker ns (removeEND n))
  | .mapMarker _ :: rest =>
      match nsLoopSub ns acc rest with
      | .error e => .error e
      | .ok p => .ok (p.1, ⟨p.2.val, Nat.le_succ_of_le p.2.property⟩)
termination_by ts.length
decreasing_by
  · simp only [List.length_cons]; omega
  · simp only [List.length_cons]; omega
  · have h1 := p.2.property
    have h3 := List.length_drop 1 p.2.val
    simp only [List.length_cons]
    omega
  · simp only [List.length_cons]; omega

/-- The loop of `parse_namespace` with the termination bookkeeping erased. -/
def nsLoop (ns : Name) (acc : LumpCollection) (ts : List LumpToken) :
    Except ParseError (LumpCollection × List LumpToken) :=
  match nsLoopSub ns acc ts with
  | .error e => .error e
  | .ok p => .ok (p.1, p.2.val)

/-- Models the loop of `parse_tokens` (`src/index.rs` lines 14–31): the
root frame. A `MarkerStart` dispatches to the namespace loop after which
the trailing `iter.next()` drops the (matching) end marker the inner loop
broke on; a `MapMarker` dispatches to the map loop and `continue`s without
consuming the breaking token; a `MarkerEnd` at the root falls into the
catch-all `_ => {}` arm and is skipped. -/
def ptLoop (lumps maps : LumpCollection) (ts : List LumpToken) :
    Except ParseError (LumpCollection × LumpCollection) :=
  match ts with
  | [] => .ok (lumps, maps)
  | .lump n r :: rest => ptLoop (lumps.addLump n r) maps rest
  | .markerStart n :: rest =>
      match nsLoopSub (removeSTART n) .empty rest with
      | .error e => .error e
      | .ok p =>
          match lumps.addCollection n p.1 with
          | .error e => .error e
          | .ok lumps' => ptLoop lumps' maps (p.2.val.drop 1)
  | .mapMarker n :: rest =>
      match maps.addCollection n (mapLoopSub .empty rest).1 with
      | .error e => .error e
      | .ok maps' => ptLoop lumps maps' (mapLoopSub .empty rest).2.val
  | .markerEnd _ :: rest => ptLoop lumps maps rest
termination_by ts.length
decreasing_by
  · simp only [List.length_cons]; omega
  · have hb := p.2.property
    have hd := List.length_drop 1 p.2.val
    simp only [List.length_cons]
    omega
  · have hb := (mapLoopSub LumpCollection.empty rest).2.property
    simp only [List.length_cons]
    omega
  · simp only [List.length_cons]; omega

/-- Models `parse_tokens` (`src/index.rs` lines 9–36): run the root loop
starting from two empty collections, then insert the accumulated map
collection under the reserved key `"MAPS"`. -/
def parseTokens (ts : List LumpToken) : Except ParseError LumpCollection :=
  match ptLoop .empty .empty ts with
  | .error e => .error e
  | .ok (lumps, maps) => lumps.addCollection (nm "MAPS") maps

/-! ### Byte-level model: header, directory reader, tokenizer -/

/-- Indexing into a byte buffer (out-of-range reads never happen on the
paths the bounds checks guard; the default 0 keeps the function total). -/
def byteAt (data : List Nat) (i : Nat) : Nat := data.getD i 0

/-- Little-endian 32-bit read, as `i32::from_le_bytes` produces before any
sign interpretation. -/
def readU32 (data : List Nat) (o : Nat) : Nat :=
  byteAt data o + 256 * (byteAt data (o + 1) +
    256 * (byteAt data (o + 2) + 256 * byteAt data (o + 3)))

/-- Models Rust's `i32::from_le_bytes(..) as usize`: reinterpret the low 32
bits as a signed value and sign-extend to a 64-bit `usize`. For a value
read from 4 real bytes the `% 2 ^ 32` is the identity. -/
def i32AsUsize (u : Nat) : Nat :=
  if u % 2 ^ 32 < 2 ^ 31 then u % 2 ^ 32
  else u % 2 ^ 32 + (2 ^ 64 - 2 ^ 32)

/-- The decoded `offset` field of the directory entry at byte offset `o`
(`i32::from_le_bytes(*pos_bytes) as usize`). -/
def entryPos (data : List Nat) (o : Nat) : Nat := i32AsUsize (readU32 data o)

/-- The decoded `length` field of the directory entry at byte offset `o`
(`i32::from_le_bytes(*len_bytes) as usize`). -/
def entryLen (data : List Nat) (o : Nat) : Nat :=
  i32AsUsize (readU32 data (o + 4))

/-- The raw 8-byte name field of the directory entry at byte offset `o`. -/
def entryNameField (data : List Nat) (o : Nat) : List Nat :=
  (data.drop (o + 8)).take 8

/-- Models the tokenizer's name decode (`src/tokenizer.rs` line 79):
`from_utf8_unchecked(name_bytes).trim_end_matches('\0')` — trailing NUL
bytes are trimmed; embedded NULs and letter case are left untouched. -/
def tokNameDecode (field : List Nat) : List Nat :=
  (field.reverse.dropWhile (fun b => b == 0)).reverse

/-- Rust's `u8::to_ascii_uppercase` on a byte. -/
def toUpperByte (b : Nat) : Nat := if 97 ≤ b ∧ b ≤ 122 then b - 32 else b

/-- Models `DirectoryRef::name` (`src/directory.rs` lines 43–48) on an
8-byte name field: truncate at the first NUL
(`position(|&b| b == 0).unwrap_or(8)`), then `to_ascii_uppercase`
(`from_utf8_lossy` is the identity on the ASCII names of the format). -/
def dirNameDecode (field : List Nat) : List Nat :=
  (field.take (field.findIdx (fun b => b == 0))).map toUpperByte

/-- The full `DirectoryRef::name` path: slice the 8-byte field at the
entry's `name_offset` and decode it. -/
def directoryRefName (data : List Nat) (r : DirectoryRef) : List Nat :=
  dirNameDecode ((data.drop r.nameOffset).take 8)

/-- Models the tokenizer's `LumpToken<'a>` (`src/tokenizer.rs` lines 7–13);
the `Lump` payload `LumpRef` carries the sliced content bytes and the
decoded name. -/
inductive RawToken where
  | markerStart (name : List Nat)
  | markerEnd (name : List Nat)
  | mapMarker (name : List Nat)
  | lump (name : List Nat) (content : List Nat)
deriving DecidableEq, Repr

/-- Rust's `u8::is_ascii_digit`. -/
def isAsciiDigit (b : Nat) : Bool := decide (48 ≤ b ∧ b ≤ 57)

/-- Models `is_map_marker` (`src/tokenizer.rs` lines 25–31): the byte
pattern `MAP` plus two ASCII digits, or `E` + digit + `M` + digit
(`77 = 'M'`, `65 = 'A'`, `80 = 'P'`, `69 = 'E'`). -/
def is_map_marker (name : List Nat) : Bool :=
  match name with
  | [77, 65, 80, d1, d2] => isAsciiDigit d1 && isAsciiDigit d2
  | [69, d1, 77, d2] => isAsciiDigit d1 && isAsciiDigit d2
  | _ => false

/-- The byte spelling of `"_START"`. -/
def startSuffix : List Nat := [95, 83, 84, 65, 82, 84]

/-- The byte spelling of `"_END"`. -/
def endSuffix : List Nat := [95, 69, 78, 68]

/-- Models `LumpToken::is_start_marker`: `name.ends_with("_START")`. -/
def is_start_marker (name : List Nat) : Bool := startSuffix.isSuffixOf name

/-- Models `LumpToken::is_end_marker`: `name.ends_with("_END")`. -/
def is_end_marker (name : List Nat) : Bool := endSuffix.isSuffixOf name

/-- The three possible results of one `TokenIterator::next` item: a token,
the `Err("Unknown marker type")` value, or a panic from the out-of-range
slice `&self.data[pos..pos + len]`. -/
inductive TokStep where
  | tok (t : RawToken)
  | failUnknownMarker (name : List Nat)
  | panicked
deriving DecidableEq, Repr

/-- The marker-classification block of `TokenIterator::next`
(`src/tokenizer.rs` lines 89–98), applied to a zero-length entry's decoded
name: map marker first, then `_START`, then `_END`, otherwise the unknown
marker error. -/
def classifyMarker (name : List Nat) : TokStep :=
  if is_map_marker name then .tok (.mapMarker name)
  else if is_start_marker name then .tok (.markerStart name)
  else if is_end_marker name then .tok (.markerEnd name)
  else .failUnknownMarker name

/-- One step of `TokenIterator::next` (`src/tokenizer.rs` lines 58–102) at
entry offset `o`. The slice `&self.data[pos..pos + len]` is taken BEFORE
classification, so an out-of-range lump panics (in release mode `pos + len`
wraps, and Rust panics when the wrapped end is below `pos` or beyond the
buffer). -/
def tokenizeEntry (data : List Nat) (o : Nat) : TokStep :=
  if (entryPos data o + entryLen data o) % 2 ^ 64 < entryPos data o ∨
      data.length < (entryPos data o + entryLen data o) % 2 ^ 64 then
    .panicked
  else if entryLen data o = 0 then
    classifyMarker (tokNameDecode (entryNameField data o))
  else
    .tok (.lump (tokNameDecode (entryNameField data o))
      ((data.drop (entryPos data o)).take (entryLen data o)))

/-- Outcome of driving `TokenIterator` to completion and collecting the
tokens, stopping at the first `Err` or panic. -/
inductive TokensOutcome where
  | ok (ts : List RawToken)
  | failUnknownMarker (name : List Nat)
  | panicked
deriving DecidableEq, Repr

/-- The collecting step for one iterator item: an `Err` or a panic aborts
the whole collection; a token is prepended to the outcome of the rest of
the stream. -/
def tokCons : TokStep → TokensOutcome → TokensOutcome
  | .panicked, _ => .panicked
  | .failUnknownMarker n, _ => .failUnknownMarker n
  | .tok t, .ok ts => .ok (t :: ts)
  | .tok _, .failUnknownMarker n => .failUnknownMarker n
  | .tok _, .panicked => .panicked

/-- Collects the tokens of the directory range `[o, fin)`, 16 bytes per
entry, exactly as the `TokenIterator` loop does (`next` returns `None`
once `directory_offset >= directory_end`; the guard is written as
`fin - o = 0`, equivalent on `Nat` to `¬ o < fin`). -/
def readTokens (data : List Nat) (o fin : Nat) : TokensOutcome :=
  match hrem : fin - o with
  | 0 => .ok []
  | _ + 1 => tokCons (tokenizeEntry data o) (readTokens data (o + 16) fin)
termination_by fin - o
decreasing_by omega

/-- Models `DirectoryIterator::next` (`src/directory.rs` lines 129–149)
driven to completion: every declared entry is produced unconditionally as
`DirectoryRef::new(pos, pos + len, start + 8)` — the iterator performs no
bounds validation of `(pos, pos + len)` and has no error outcome. -/
def readDirectory (data : List Nat) (o fin : Nat) : List DirectoryRef :=
  match hrem : fin - o with
  | 0 => []
  | _ + 1 =>
      ⟨entryPos data o, (entryPos data o + entryLen data o) % 2 ^ 64,
        o + 8⟩ :: readDirectory data (o + 16) fin
termination_by fin - o
decreasing_by omega

/-- The header magic check of `Header::try_from` (`src/header.rs`):
`b"IWAD"` (`73 87 65 68`) or `b"PWAD"` (`80 87 65 68`). -/
def magicOk (data : List Nat) : Bool :=
  (byteAt data 0 == 73 && byteAt data 1 == 87 && byteAt data 2 == 65 &&
    byteAt data 3 == 68) ||
  (byteAt data 0 == 80 && byteAt data 1 == 87 && byteAt data 2 == 65 &&
    byteAt data 3 == 68)

/-- The `directory_end` computed by `TokenIterator::new`: `info_table_offset as usize +
num_lumps as usize * 16`, with release-mode wrapping. -/
def dirEndOf (data : List Nat) : Nat :=
  (i32AsUsize (readU32 data 8) + i32AsUsize (readU32 data 4) * 16) % 2 ^ 64

/-- Overall outcome of `WadIndex::from_bytes` up to and including token
collection (`src/wad.rs` lines 20–39 plus `TokenIterator::new`):
header-size check, magic check, directory-bounds check, then the token
stream. -/
inductive BuildOutcome where
  | ok (ts : List RawToken)
  | headerTooSmall
  | invalidMagic
  | directoryTooSmall
  | failUnknownMarker (name : List Nat)
  | panicked
deriving DecidableEq, Repr

/-- The byte-level parse pipeline: `WadIndex::from_bytes`'s header checks
followed by `TokenIterator::new`'s directory-bounds check and the token
collection loop. -/
def buildTokens (data : List Nat) : BuildOutcome :=
  if data.length < 12 then .headerTooSmall
  else if magicOk data then
    if data.length < dirEndOf data then .directoryTooSmall
    else
      match readTokens data (i32AsUsize (readU32 data 8)) (dirEndOf data) with
      | .ok ts => .ok ts
      | .failUnknownMarker n => .failUnknownMarker n
      | .panicked => .panicked
  else .invalidMagic

/-- Concrete buffer for the bounds-validation claim: `IWAD`, one lump,
directory at offset 12, single entry `(offset 100, length 50, name "FOO")`
whose end `150` exceeds the buffer length `28` while the header and the
directory table itself are in bounds. -/
def c1buf : List Nat :=
  [73, 87, 65, 68, 1, 0, 0, 0, 12, 0, 0, 0,
   100, 0, 0, 0, 50, 0, 0, 0, 70, 79, 79, 0, 0, 0, 0, 0]

/-- Concrete buffer for the marker-classification claim: `IWAD`, one lump,
directory at offset 12, single zero-length entry named `"1M1"`
(`49 77 49`) — a name matching the spec's literal "digit + `M` + digit"
map pattern. -/
def c8buf : List Nat :=
  [73, 87, 65, 68, 1, 0, 0, 0, 12, 0, 0, 0,
   0, 0, 0, 0, 0, 0, 0, 0, 49, 77, 49, 0, 0, 0, 0, 0]

/-! ### Spec-side definitions used to compare claims with the code

The spec describes marker-name stripping as removing one `_START` / `_END`
SUFFIX; the code uses `str::replace`, which removes every occurrence. The
spec also words the second map-name pattern as "one ASCII digit + `M` +
one ASCII digit". These definitions follow the spec's words and exist only
to state those comparisons. -/

/-- Modelled from the spec: `strip_suffix(name, "_END")` — remove a single
trailing `"_END"`. -/
def stripSuffixEND (s : Name) : Name :=
  if (nm "_END").isSuffixOf s then s.take (s.length - 4) else s

/-- Modelled from the spec: `strip_suffix(name, "_START")` — remove a
single trailing `"_START"`. -/
def stripSuffixSTART (s : Name) : Name :=
  if (nm "_START").isSuffixOf s then s.take (s.length - 6) else s

/-- Modelled from the spec's literal words: a map-marker name is `MAP`
followed by two ASCII digits, or ONE ASCII DIGIT + `M` + one ASCII digit
(the spec cites `E1M1` as an example of the second form, but its words
describe the three-byte shape `dMd`). -/
def specClaimMapName (name : List Nat) : Bool :=
  match name with
  | [77, 65, 80, d1, d2] => isAsciiDigit d1 && isAsciiDigit d2
  | [d1, 77, d2] => isAsciiDigit d1 && isAsciiDigit d2
  | _ => false

/-- The corrected map-name pattern, stated positionally rather than by
pattern matching: length 5 with `MAP` + digit + digit, or length 4 with
`E` + digit + `M` + digit. -/
def specMapNamePattern (name : List Nat) : Bool :=
  (decide (name.length = 5) && (name.take 3 == [77, 65, 80]) &&
    isAsciiDigit (name.getD 3 0) && isAsciiDigit (name.getD 4 0)) ||
  (decide (name.length = 4) && (name.getD 0 0 == 69) &&
    isAsciiDigit (name.getD 1 0) && (name.getD 2 0 == 77) &&
    isAsciiDigit (name.getD 3 0))

/-! ### Equation lemmas for the loop functions -/

theorem mapLoop_nil (acc : LumpCollection) : mapLoop acc [] = (acc, []) := by
  simp [mapLoop, mapLoopSub]

theorem mapLoop_lump_yes (acc : LumpCollection) (n : Name) (r : DirectoryRef)
    (rest : List LumpToken) (h : isMapLump n = true) :
    mapLoop acc (.lump n r :: rest) = mapLoop (acc.addLump n r) rest := by
  simp [mapLoop, mapLoopSub, h]

theorem mapLoop_lump_no (acc : LumpCollection) (n : Name) (r : DirectoryRef)
    (rest : List LumpToken) (h : isMapLump n = false) :
    mapLoop acc (.lump n r :: rest) = (acc, .lump n r :: rest) := by
  simp [mapLoop, mapLoopSub, h]

theorem nsLoop_nil (ns : Name) (acc : LumpCollection) :
    nsLoop ns acc [] = .ok (acc, []) := by
  unfold nsLoop
  rw [nsLoopSub.eq_def]

theorem nsLoop_lump (ns : Name) (acc : LumpCollection) (n : Name)
    (r : DirectoryRef) (rest : List LumpToken) :
    nsLoop ns acc (.lump n r :: rest) = nsLoop ns (acc.addLump n r) rest := by
  unfold nsLoop
  conv_lhs => rw [nsLoopSub.eq_def]
  rcases h : nsLoopSub ns (acc.addLump n r) rest with e | p <;> simp [h]

theorem nsLoop_markerEnd (ns : Name) (acc : LumpCollection) (n : Name)
    (rest : List LumpToken) :
    nsLoop ns acc (.markerEnd n :: rest) =
      if removeEND n = ns then .ok (acc, .markerEnd n :: rest)
      else .error (.mismatchedEndMarker ns (removeEND n)) := by
  unfold nsLoop
  conv_lhs => rw [nsLoopSub.eq_def]
  by_cases h : removeEND n = ns <;> simp [h]

theorem nsLoop_mapMarker (ns : Name) (acc : LumpCollection) (n : Name)
    (rest : List LumpToken) :
    nsLoop ns acc (.mapMarker n :: rest) = nsLoop ns acc rest := by
  unfold nsLoop
  conv_lhs => rw [nsLoopSub.eq_def]
  rcases h : nsLoopSub ns acc rest with e | p <;> simp [h]

theorem nsLoop_markerStart (ns : Name) (acc : LumpCollection) (n : Name)
    (rest : List LumpToken) :
    nsLoop ns acc (.markerStart n :: rest) =
      match nsLoop (removeSTART n) .empty rest with
      | .error e => .error e
      | .ok (inner, r') =>
          match acc.addCollection n inner with
          | .error e => .error e
          | .ok acc' => nsLoop ns acc' (r'.drop 1) := by
  conv_lhs => unfold nsLoop; rw [nsLoopSub.eq_def]
  rcases h1 : nsLoopSub (removeSTART n) .empty rest with e | p
  · simp [nsLoop, h1]
  · rcases h2 : acc.addCollection n p.1 with e | acc'
    · simp [nsLoop, h1, h2]
    · rcases h3 : nsLoopSub ns acc' (p.2.val.drop 1) with e | q <;>
        simp [nsLoop, h1, h2, h3]

theorem ptLoop_nil (lumps maps : LumpCollection) :
    ptLoop lumps maps [] = .ok (lumps, maps) := by
  rw [ptLoop.eq_def]

theorem ptLoop_lump (lumps maps : LumpCollection) (n : Name)
    (r : DirectoryRef) (rest : List LumpToken) :
    ptLoop lumps maps (.lump n r :: rest) =
      ptLoop (lumps.addLump n r) maps rest := by
  rw [ptLoop.eq_def]

theorem ptLoop_markerEnd (lumps maps : LumpCollection) (n : Name)
    (rest : List LumpToken) :
    ptLoop lumps maps (.markerEnd n :: rest) = ptLoop lumps maps rest := by
  rw [ptLoop.eq_def]

theorem ptLoop_markerStart (lumps maps : LumpCollection) (n : Name)
    (rest : List LumpToken) :
    ptLoop lumps maps (.markerStart n :: rest) =
      match nsLoop (removeSTART n) .empty rest with
      | .error e => .error e
      | .ok (inner, r') =>
          match lumps.addCollection n inner with
          | .error e => .error e
          | .ok lumps' => ptLoop lumps' maps (r'.drop 1) := by
  conv_lhs => rw [ptLoop.eq_def]
  rcases h1 : nsLoopSub (removeSTART n) .empty rest with e | p
  · simp [nsLoop, h1]
  · rcases h2 : lumps.addCollection n p.1 with e | lumps' <;>
      simp [nsLoop, h1, h2]

theorem ptLoop_mapMarker (lumps maps : LumpCollection) (n : Name)
    (rest : List LumpToken) :
    ptLoop lumps maps (.mapMarker n :: rest) =
      match maps.addCollection n (mapLoop .empty rest).1 with
      | .error e => .error e
      | .ok maps' => ptLoop lumps maps' (mapLoop .empty rest).2 := by
  conv_lhs => rw [ptLoop.eq_def]
  rfl

/-! ### Helper lemmas about the collection operations -/

theorem alGet_alInsert_self {α : Type} (m : List (Name × α)) (k : Name)
    (v : α) : alGet (alInsert m k v) k = some v := by
  induction m with
  | nil => simp [alInsert, alGet]
  | cons p rest ih =>
      by_cases h : p.1 = k
      · simp [alInsert, alGet, h]
      · simp [alInsert, alGet, h, ih]

theorem alInsert_of_not_mem {α : Type} (m : List (Name × α)) (k : Name)
    (v : α) (h : k ∉ m.map Prod.fst) : alInsert m k v = m ++ [(k, v)] := by
  induction m with
  | nil => simp [alInsert]
  | cons p rest ih =>
      simp only [List.map_cons, List.mem_cons] at h
      push_neg at h
      simp [alInsert, Ne.symm h.1, ih h.2]

theorem foldl_alInsert_nodup {α : Type} (items : List (Name × α))
    (m : List (Name × α)) (hn : (items.map Prod.fst).Nodup)
    (hd : ∀ k ∈ items.map Prod.fst, k ∉ m.map Prod.fst) :
    items.foldl (fun acc p => alInsert acc p.1 p.2) m = m ++ items := by
  induction items generalizing m with
  | nil => simp
  | cons p rest ih =>
      simp only [List.map_cons, List.nodup_cons] at hn
      have hp : p.1 ∉ m.map Prod.fst :=
        hd p.1 (by rw [List.map_cons]; exact List.mem_cons_self _ _)
      have step : alInsert m p.1 p.2 = m ++ [(p.1, p.2)] :=
        alInsert_of_not_mem m p.1 p.2 hp
      have hd' : ∀ k ∈ rest.map Prod.fst,
          k ∉ (alInsert m p.1 p.2).map Prod.fst := by
        intro k hk
        rw [step]
        simp only [List.map_append, List.map_cons, List.map_nil,
          List.mem_append, List.mem_cons, List.not_mem_nil]
        push_neg
        refine ⟨hd k (by simp [hk]), ?_, fun h => h.elim⟩
        intro hkp
        exact hn.1 (hkp ▸ hk)
      calc (p :: rest).foldl (fun acc q => alInsert acc q.1 q.2) m
          = rest.foldl (fun acc q => alInsert acc q.1 q.2)
              (alInsert m p.1 p.2) := by simp
        _ = alInsert m p.1 p.2 ++ rest := ih _ hn.2 hd'
        _ = m ++ p :: rest := by rw [step]; simp

theorem addLump_foldl (ls : List (Name × DirectoryRef))
    (cs : List (Name × LumpCollection))
    (items : List (Name × DirectoryRef)) :
    items.foldl (fun a p => a.addLump p.1 p.2) (LumpCollection.mk ls cs) =
      .mk (items.foldl (fun m p => alInsert m p.1 p.2) ls) cs := by
  induction items generalizing ls with
  | nil => simp
  | cons p rest ih =>
      simpa [LumpCollection.addLump] using ih (alInsert ls p.1 p.2)

theorem nsLoop_lump_append (ns : Name) (acc : LumpCollection)
    (items : List (Name × DirectoryRef)) (ts : List LumpToken) :
    nsLoop ns acc (items.map (fun p => LumpToken.lump p.1 p.2) ++ ts) =
      nsLoop ns (items.foldl (fun a p => a.addLump p.1 p.2) acc) ts := by
  induction items generalizing acc with
  | nil => simp
  | cons p rest ih => simpa [nsLoop_lump] using ih (acc.addLump p.1 p.2)

theorem mapLoop_lump_append (acc : LumpCollection)
    (items : List (Name × DirectoryRef)) (ts : List LumpToken)
    (h : ∀ p ∈ items, isMapLump p.1 = true) :
    mapLoop acc (items.map (fun p => LumpToken.lump p.1 p.2) ++ ts) =
      mapLoop (items.foldl (fun a p => a.addLump p.1 p.2) acc) ts := by
  induction items generalizing acc with
  | nil => simp
  | cons p rest ih =>
      have hp : isMapLump p.1 = true := h p (by simp)
      simp only [List.map_cons, List.cons_append, List.foldl_cons]
      rw [mapLoop_lump_yes _ _ _ _ hp]
      exact ih (acc.addLump p.1 p.2) (fun q hq => h q (by simp [hq]))

theorem ptLoop_lump_append (lumps maps : LumpCollection)
    (items : List (Name × DirectoryRef)) (ts : List LumpToken) :
    ptLoop lumps maps (items.map (fun p => LumpToken.lump p.1 p.2) ++ ts) =
      ptLoop (items.foldl (fun a p => a.addLump p.1 p.2) lumps) maps ts := by
  induction items generalizing lumps with
  | nil => simp
  | cons p rest ih => simpa [ptLoop_lump] using ih (lumps.addLump p.1 p.2)

/-! ### Claim theorems on the indexer -/

/-- C2, counterexample to the claim as stated: for the marker pair
`S_START … S_END` with one interior lump, the produced namespace is keyed
by the FULL marker name `"S_START"`; looking it up under the stripped key
`"S"` (as the claim requires) finds nothing. -/
theorem c2_counterexample :
    parseTokens [.markerStart (nm "S_START"), .lump (nm "L1") ⟨0, 10, 0⟩,
        .markerEnd (nm "S_END")] =
      .ok (.mk [] [(nm "S_START", .mk [(nm "L1", ⟨0, 10, 0⟩)] []),
        (nm "MAPS", .mk [] [])]) ∧
    (LumpCollection.mk [] [(nm "S_START", .mk [(nm "L1", ⟨0, 10, 0⟩)] []),
        (nm "MAPS", .mk [] [])]).getCollection (nm "S") = none ∧
    (LumpCollection.mk [] [(nm "S_START", .mk [(nm "L1", ⟨0, 10, 0⟩)] []),
        (nm "MAPS", .mk [] [])]).getCollection (nm "S_START") =
      some (.mk [(nm "L1", ⟨0, 10, 0⟩)] []) := by
  refine ⟨?_, ?_, ?_⟩
  · simp [parseTokens, ptLoop_markerStart, ptLoop_nil, nsLoop_lump,
      nsLoop_markerEnd, nsLoop_nil, removeSTART, removeEND, nm,
      LumpCollection.addCollection, LumpCollection.addLump,
      LumpCollection.empty, alContains, alGet, alInsert]
  · simp [LumpCollection.getCollection, LumpCollection.collections, alGet, nm]
  · simp [LumpCollection.getCollection, LumpCollection.collections, alGet, nm]

/-- C2 (amended): a marker pair with matching names (in the code's
`replace`-based sense) and `k` interior lumps with distinct names produces
a namespace containing exactly those `k` lumps and no sub-namespaces, but
it is inserted under the FULL start-marker name (`"X_START"`), not under
the stripped name `"X"`. -/
theorem c2_namespace_pair (sn en : Name) (items : List (Name × DirectoryRef))
    (hsn : sn ≠ nm "MAPS")
    (hmatch : removeEND en = removeSTART sn)
    (hnodup : (items.map Prod.fst).Nodup) :
    parseTokens (.markerStart sn ::
        (items.map (fun p => LumpToken.lump p.1 p.2) ++ [.markerEnd en])) =
      .ok (.mk [] [(sn, .mk items []), (nm "MAPS", .mk [] [])]) := by
  have hfold : items.foldl (fun a p => a.addLump p.1 p.2) LumpCollection.empty
      = .mk items [] := by
    rw [LumpCollection.empty, addLump_foldl,
      foldl_alInsert_nodup items [] hnodup
        (by intro k _ h; rw [List.map_nil] at h
            exact absurd h (List.not_mem_nil k))]
    simp
  unfold parseTokens
  rw [ptLoop_markerStart, nsLoop_lump_append, hfold, nsLoop_markerEnd, hmatch,
    if_pos rfl]
  simp [LumpCollection.addCollection, LumpCollection.empty, alContains,
    alGet, alInsert, ptLoop_nil, hsn, Ne.symm hsn]

/-- C2 witness: the amended theorem applied at the pair
`S_START, L1, S_END`. -/
theorem c2_witness :
    parseTokens [.markerStart (nm "S_START"), .lump (nm "L1") ⟨0, 10, 0⟩,
        .markerEnd (nm "S_END")] =
      .ok (.mk [] [(nm "S_START", .mk [(nm "L1", ⟨0, 10, 0⟩)] []),
        (nm "MAPS", .mk [] [])]) :=
  c2_namespace_pair (nm "S_START") (nm "S_END") [(nm "L1", ⟨0, 10, 0⟩)]
    (by decide) (by decide) (by decide)

/-- C3, counterexample to the claim as stated: a lone `Y_END` at the root
does not fail with `DanglingEndMarker` — the parse succeeds (the token
falls into the root loop's catch-all arm and is skipped). -/
theorem c3_counterexample :
    parseTokens [.markerEnd (nm "Y_END")] =
      .ok (.mk [] [(nm "MAPS", .mk [] [])]) := by
  simp [parseTokens, ptLoop_markerEnd, ptLoop_nil,
    LumpCollection.addCollection, LumpCollection.empty, alContains, alGet,
    alInsert]

/-- C3 (amended): an end marker at the root frame is silently ignored —
the parse of `Y_END :: ts` is exactly the parse of `ts`. -/
theorem c3_dangling_end_ignored (n : Name) (ts : List LumpToken) :
    parseTokens (.markerEnd n :: ts) = parseTokens ts := by
  unfold parseTokens
  rw [ptLoop_markerEnd]

/-- C4, counterexample to the claim as stated: an `X_START` with no
matching end marker does not fail with `UnterminatedNamespace` — the parse
succeeds, silently closing the open namespace. -/
theorem c4_counterexample :
    parseTokens [.markerStart (nm "X_START")] =
      .ok (.mk [] [(nm "X_START", .mk [] []), (nm "MAPS", .mk [] [])]) := by
  simp [parseTokens, ptLoop_markerStart, ptLoop_nil, nsLoop_nil,
    LumpCollection.addCollection, LumpCollection.empty, alContains, alGet,
    alInsert, nm]

/-- C4 (amended): when the token stream ends while a namespace frame is
still open, the namespace is closed implicitly — its accumulated lumps are
inserted under the full start-marker name — and the parse succeeds. -/
theorem c4_unterminated_silently_closed (sn : Name)
    (items : List (Name × DirectoryRef)) (hsn : sn ≠ nm "MAPS") :
    parseTokens (.markerStart sn ::
        items.map (fun p => LumpToken.lump p.1 p.2)) =
      .ok (.mk []
        [(sn, .mk (items.foldl (fun m p => alInsert m p.1 p.2) []) []),
         (nm "MAPS", .mk [] [])]) := by
  have harr : items.map (fun p => LumpToken.lump p.1 p.2) =
      items.map (fun p => LumpToken.lump p.1 p.2) ++ [] := by simp
  unfold parseTokens
  rw [ptLoop_markerStart, harr, nsLoop_lump_append, nsLoop_nil,
    LumpCollection.empty, addLump_foldl]
  simp [LumpCollection.addCollection, alContains, alGet, alInsert,
    ptLoop_nil, hsn, Ne.symm hsn]

/-- C4 witness: the amended theorem applied at `X_START` followed by one
lump and end of stream. -/
theorem c4_witness :
    parseTokens [.markerStart (nm "X_START"), .lump (nm "L1") ⟨1, 2, 3⟩] =
      .ok (.mk [] [(nm "X_START", .mk [(nm "L1", ⟨1, 2, 3⟩)] []),
        (nm "MAPS", .mk [] [])]) :=
  c4_unterminated_silently_closed (nm "X_START") [(nm "L1", ⟨1, 2, 3⟩)]
    (by decide)

/-- C5, counterexample to the claim as stated: the code compares marker
names with `str::replace`, not with a suffix strip. For the 8-byte-named
pair `_START … _END_END` the code pops successfully (both names collapse
to the empty string under `replace`), although the end marker's name with
only its `_END` SUFFIX stripped is `"_END"`, which differs from the
frame's name `""` — so the claim demands a `MismatchedEndMarker` failure
here. -/
theorem c5_counterexample :
    parseTokens [.markerStart (nm "_START"), .markerEnd (nm "_END_END")] =
      .ok (.mk [] [(nm "_START", .mk [] []), (nm "MAPS", .mk [] [])]) ∧
    stripSuffixEND (nm "_END_END") ≠ stripSuffixSTART (nm "_START") := by
  constructor
  · simp [parseTokens, ptLoop_markerStart, ptLoop_nil, nsLoop_markerEnd,
      removeSTART, removeEND, nm, LumpCollection.addCollection,
      LumpCollection.empty, alContains, alGet, alInsert]
  · decide

/-- C5 (amended): on a start/end marker pair the pop succeeds exactly when
the end marker's name with every occurrence of `"_END"` removed equals the
frame's name (the start marker's name with every occurrence of `"_START"`
removed); otherwise the parse fails with the mismatched-end-marker
error. -/
theorem c5_pop_condition (sn en : Name) (hsn : sn ≠ nm "MAPS") :
    parseTokens [.markerStart sn, .markerEnd en] =
      if removeEND en = removeSTART sn then
        .ok (.mk [] [(sn, .mk [] []), (nm "MAPS", .mk [] [])])
      else .error (.mismatchedEndMarker (removeSTART sn) (removeEND en)) := by
  unfold parseTokens
  rw [ptLoop_markerStart, nsLoop_markerEnd]
  by_cases h : removeEND en = removeSTART sn
  · rw [if_pos h, if_pos h]
    simp [LumpCollection.addCollection, LumpCollection.empty, alContains,
      alGet, alInsert, ptLoop_nil, hsn, Ne.symm hsn]
  · rw [if_neg h, if_neg h]

/-- C5 witness: the amended theorem applied at the mismatched pair
`X_START … Y_END`, which fails with the mismatched-end-marker error. -/
theorem c5_witness :
    parseTokens [.markerStart (nm "X_START"), .markerEnd (nm "Y_END")] =
      .error (.mismatchedEndMarker (nm "X") (nm "Y")) := by
  have h := c5_pop_condition (nm "X_START") (nm "Y_END") (by decide)
  rw [h, if_neg (by decide)]
  rfl

/-- C6, counterexample to the claim as stated: a `MapStart` inside an open
namespace frame does NOT open a map run — `parse_namespace` skips it via
its catch-all arm, the following `THINGS` lump lands in the namespace, and
the `MAPS` namespace stays empty. The claim's "at any frame" fails. -/
theorem c6_counterexample :
    parseTokens [.markerStart (nm "A_START"), .mapMarker (nm "E1M1"),
        .lump (nm "THINGS") ⟨0, 10, 0⟩, .markerEnd (nm "A_END")] =
      .ok (.mk [] [(nm "A_START", .mk [(nm "THINGS", ⟨0, 10, 0⟩)] []),
        (nm "MAPS", .mk [] [])]) := by
  simp [parseTokens, ptLoop_markerStart, ptLoop_nil, nsLoop_mapMarker,
    nsLoop_lump, nsLoop_markerEnd, removeSTART, removeEND, nm,
    LumpCollection.addCollection, LumpCollection.addLump,
    LumpCollection.empty, alContains, alGet, alInsert]

/-- C6 (amended): at the ROOT frame a `MapStart` opens a map run: it
consumes the following consecutive recognized map lumps into the
`MAPS/<name>` namespace and stops at the first unrecognized lump without
consuming it, leaving that lump to be indexed at the root. -/
theorem c6_map_run_at_root (mn s : Name) (r : DirectoryRef)
    (items : List (Name × DirectoryRef))
    (hitems : ∀ p ∈ items, isMapLump p.1 = true)
    (hs : isMapLump s = false) :
    parseTokens (.mapMarker mn ::
        (items.map (fun p => LumpToken.lump p.1 p.2) ++ [.lump s r])) =
      .ok (.mk [(s, r)]
        [(nm "MAPS",
          .mk [] [(mn,
            .mk (items.foldl (fun m p => alInsert m p.1 p.2) []) [])])]) := by
  have hml : mapLoop .empty
      (items.map (fun p => LumpToken.lump p.1 p.2) ++ [.lump s r]) =
      (.mk (items.foldl (fun m p => alInsert m p.1 p.2) []) [],
        [.lump s r]) := by
    rw [mapLoop_lump_append _ _ _ hitems, LumpCollection.empty, addLump_foldl,
      mapLoop_lump_no _ _ _ _ hs]
  unfold parseTokens
  rw [ptLoop_mapMarker, hml]
  simp [LumpCollection.addCollection, LumpCollection.addLump,
    LumpCollection.empty, alContains, alGet, alInsert, ptLoop_lump,
    ptLoop_nil]

/-- C6 witness: the spec's own example — `MapStart("E1M1")`, `THINGS`,
`LINEDEFS`, then `SND`: the two map lumps land under `MAPS/E1M1` and `SND`
is indexed at the root. -/
theorem c6_witness :
    parseTokens [.mapMarker (nm "E1M1"), .lump (nm "THINGS") ⟨0, 10, 0⟩,
        .lump (nm "LINEDEFS") ⟨10, 20, 16⟩, .lump (nm "SND") ⟨20, 30, 32⟩] =
      .ok (.mk [(nm "SND", ⟨20, 30, 32⟩)]
        [(nm "MAPS",
          .mk [] [(nm "E1M1",
            .mk [(nm "THINGS", ⟨0, 10, 0⟩),
                 (nm "LINEDEFS", ⟨10, 20, 16⟩)] [])])]) := by
  have h := c6_map_run_at_root (nm "E1M1") (nm "SND") ⟨20, 30, 32⟩
    [(nm "THINGS", ⟨0, 10, 0⟩), (nm "LINEDEFS", ⟨10, 20, 16⟩)]
    (by decide) (by decide)
  simpa [alInsert, nm] using h

/-- C9, counterexample to the claim as stated: a repeated namespace pair
`S_START … S_END … S_START … S_END` makes the parse FAIL with the
duplicate-sub-collection error — sub-namespace collisions are not resolved
last-write-wins. -/
theorem c9_counterexample :
    parseTokens [.markerStart (nm "S_START"), .markerEnd (nm "S_END"),
        .markerStart (nm "S_START"), .markerEnd (nm "S_END")] =
      .error (.duplicateCollection (nm "S_START")) := by
  simp [parseTokens, ptLoop_markerStart, ptLoop_nil, nsLoop_markerEnd,
    removeSTART, removeEND, nm, LumpCollection.addCollection,
    LumpCollection.empty, alContains, alGet, alInsert]

/-- C9 (amended): within one namespace level, a LUMP name collision
resolves last-write-wins (`HashMap::insert`), but a SUB-NAMESPACE name
collision fails the insertion — and hence the parse — with the
duplicate-sub-collection error. -/
theorem c9_collision_policy :
    (∀ (c : LumpCollection) (n : Name) (r r' : DirectoryRef),
      ((c.addLump n r).addLump n r').getLump n = some r') ∧
    (∀ (c : LumpCollection) (n : Name) (col col' : LumpCollection),
      c.getCollection n = some col →
        c.addCollection n col' = .error (.duplicateCollection n)) := by
  constructor
  · rintro ⟨ls, cs⟩ n r r'
    simp [LumpCollection.addLump, LumpCollection.getLump,
      LumpCollection.lumps, alGet_alInsert_self]
  · rintro ⟨ls, cs⟩ n col col' h
    simp only [LumpCollection.getCollection, LumpCollection.collections]
      at h
    simp [LumpCollection.addCollection, alContains, h]

/-- C9 witness: both halves of the collision-policy theorem at concrete
inputs. -/
theorem c9_witness :
    ((LumpCollection.empty.addLump (nm "A") ⟨0, 1, 2⟩).addLump (nm "A")
        ⟨3, 4, 5⟩).getLump (nm "A") = some ⟨3, 4, 5⟩ ∧
    (LumpCollection.mk [] [(nm "B", .empty)]).addCollection (nm "B")
        .empty = .error (.duplicateCollection (nm "B")) :=
  ⟨c9_collision_policy.1 LumpCollection.empty (nm "A") ⟨0, 1, 2⟩ ⟨3, 4, 5⟩,
   c9_collision_policy.2 (LumpCollection.mk [] [(nm "B", .empty)]) (nm "B")
     .empty .empty (by simp [LumpCollection.getCollection,
       LumpCollection.collections, alGet])⟩

/-- C10 (confirmed): every successful parse produces a root collection
with a sub-collection keyed `"MAPS"`; in particular the empty token
sequence parses to a root whose only entry is an empty `MAPS`
namespace. -/
theorem c10_maps_always_present :
    (∀ (ts : List LumpToken) (c : LumpCollection),
      parseTokens ts = .ok c →
        ∃ m, c.getCollection (nm "MAPS") = some m) ∧
    parseTokens [] = .ok (.mk [] [(nm "MAPS", .mk [] [])]) := by
  constructor
  · intro ts c h
    unfold parseTokens at h
    rcases hpt : ptLoop .empty .empty ts with e | p <;> rw [hpt] at h
    · exact absurd h (by simp)
    · obtain ⟨lumps, maps⟩ := p
      rcases lumps with ⟨ls, cs⟩
      simp only [LumpCollection.addCollection] at h
      by_cases hc : alContains cs (nm "MAPS")
      · rw [if_pos hc] at h
        exact absurd h (by simp)
      · rw [if_neg hc] at h
        simp only [Except.ok.injEq] at h
        refine ⟨maps, ?_⟩
        rw [← h]
        simp [LumpCollection.getCollection, LumpCollection.collections,
          alGet_alInsert_self]
  · simp [parseTokens, ptLoop_nil, LumpCollection.addCollection,
      LumpCollection.empty, alContains, alGet, alInsert]

/-- C10 witness: the general statement applied to the empty token
sequence. -/
theorem c10_witness :
    ∃ m, (LumpCollection.mk [] [(nm "MAPS", .mk [] [])]).getCollection
      (nm "MAPS") = some m :=
  c10_maps_always_present.1 [] _ c10_maps_always_present.2

/-! ### Equation lemmas for the byte-level readers -/

theorem readTokens_stop (data : List Nat) (o fin : Nat) (h : ¬ o < fin) :
    readTokens data o fin = .ok [] := by
  rw [readTokens.eq_def]
  have h0 : fin - o = 0 := by omega
  rw [h0]

theorem readTokens_step (data : List Nat) (o fin : Nat) (h : o < fin) :
    readTokens data o fin =
      tokCons (tokenizeEntry data o) (readTokens data (o + 16) fin) := by
  conv_lhs => rw [readTokens.eq_def]
  have h1 : fin - o = (fin - o - 1) + 1 := by omega
  rw [h1]

theorem readDirectory_stop (data : List Nat) (o fin : Nat) (h : ¬ o < fin) :
    readDirectory data o fin = [] := by
  rw [readDirectory.eq_def]
  have h0 : fin - o = 0 := by omega
  rw [h0]

theorem readDirectory_step (data : List Nat) (o fin : Nat) (h : o < fin) :
    readDirectory data o fin =
      ⟨entryPos data o, (entryPos data o + entryLen data o) % 2 ^ 64,
        o + 8⟩ :: readDirectory data (o + 16) fin := by
  conv_lhs => rw [readDirectory.eq_def]
  have h1 : fin - o = (fin - o - 1) + 1 := by omega
  rw [h1]

/-! ### Claim theorems on the byte-level readers -/

/-- C1, counterexample to the claim as stated: on `c1buf` — a buffer whose
header and declared directory table are in bounds but whose single entry
ends at byte 150 of a 28-byte buffer — the parse does not fail with an
`OutOfBoundsLump` error: the token pipeline ABORTS WITH A PANIC (the
model's outcome type has no out-of-bounds error constructor at all, and
`panicked` is distinct from every error outcome), while the directory
reader silently produces the out-of-bounds entry. -/
theorem c1_counterexample :
    buildTokens c1buf = .panicked ∧
    readDirectory c1buf 12 28 = [⟨100, 150, 20⟩] := by
  have htok : tokenizeEntry c1buf 12 = .panicked := by decide
  constructor
  · have hr : readTokens c1buf 12 28 = .panicked := by
      rw [readTokens_step _ _ _ (by norm_num), htok]
      rfl
    have h8 : i32AsUsize (readU32 c1buf 8) = 12 := by decide
    have hde : dirEndOf c1buf = 28 := by decide
    unfold buildTokens
    rw [if_neg (by decide), if_pos (by decide), if_neg (by rw [hde]; decide),
      h8, hde, hr]
  · rw [readDirectory_step _ _ _ (by norm_num),
      readDirectory_stop _ _ _ (by norm_num)]
    decide

/-- C1 (amended): there is no eager bounds validation on either path.
When the next directory entry's decoded `(offset, offset + length)` ends
past the buffer, the token reader aborts with a panic (never an error
value), and the directory reader still produces the entry unconditionally
(it has no failure outcome at all). -/
theorem c1_no_bounds_error (data : List Nat) (o fin : Nat) (h : o < fin)
    (hwrap : entryPos data o + entryLen data o < 2 ^ 64)
    (hoob : data.length < entryPos data o + entryLen data o) :
    readTokens data o fin = .panicked ∧
    readDirectory data o fin =
      ⟨entryPos data o, entryPos data o + entryLen data o, o + 8⟩ ::
        readDirectory data (o + 16) fin := by
  have hm : (entryPos data o + entryLen data o) % 2 ^ 64 =
      entryPos data o + entryLen data o := Nat.mod_eq_of_lt hwrap
  constructor
  · have hstep : tokenizeEntry data o = .panicked := by
      unfold tokenizeEntry
      rw [hm, if_pos (Or.inr hoob)]
    rw [readTokens_step _ _ _ h, hstep]
    rfl
  · rw [readDirectory_step _ _ _ h, hm]

/-- C1 witness: the amended theorem applied at `c1buf`'s single entry. -/
theorem c1_witness :
    readTokens c1buf 12 28 = .panicked ∧
    readDirectory c1buf 12 28 =
      ⟨entryPos c1buf 12, entryPos c1buf 12 + entryLen c1buf 12, 20⟩ ::
        readDirectory c1buf 28 28 :=
  c1_no_bounds_error c1buf 12 28 (by norm_num) (by decide) (by decide)

theorem findIdx_zero_append (core : List Nat) (k : Nat)
    (h0 : ∀ b ∈ core, b ≠ 0) :
    (core ++ List.replicate k 0).findIdx (fun b => b == 0) = core.length := by
  induction core with
  | nil =>
      cases k with
      | zero => simp
      | succ k' => simp [List.replicate_succ, List.findIdx_cons]
  | cons b core ih =>
      have hb : b ≠ 0 := h0 b (List.mem_cons_self _ _)
      simp only [List.cons_append, List.findIdx_cons, List.length_cons]
      rw [show (b == 0) = false from by simp [hb]]
      simp [ih (fun x hx => h0 x (List.mem_cons_of_mem _ hx))]

theorem dropWhile_zero_replicate_append (k : Nat) (l : List Nat) :
    (List.replicate k 0 ++ l).dropWhile (fun b => b == 0) =
      l.dropWhile (fun b => b == 0) := by
  induction k with
  | zero => simp
  | succ k' ih => simp [List.replicate_succ, List.dropWhile_cons, ih]

theorem dropWhile_zero_of_ne (l : List Nat) (h0 : ∀ b ∈ l, b ≠ 0) :
    l.dropWhile (fun b => b == 0) = l := by
  cases l with
  | nil => rfl
  | cons c tl =>
      have hc : c ≠ 0 := h0 c (List.mem_cons_self _ _)
      simp [List.dropWhile_cons, hc]

/-- C7, counterexample to the claim as stated: the tokenizer's decode path
does not truncate at the first NUL and does not case-fold. For the field
`"things\0\0"` the directory reader yields `"THINGS"` while the tokenizer
yields `"things"`; for `"AB\0CD\0\0\0"` the directory reader yields `"AB"`
while the tokenizer keeps the embedded NUL and yields `"AB\0CD"`. -/
theorem c7_counterexample :
    dirNameDecode [116, 104, 105, 110, 103, 115, 0, 0] =
      [84, 72, 73, 78, 71, 83] ∧
    tokNameDecode [116, 104, 105, 110, 103, 115, 0, 0] =
      [116, 104, 105, 110, 103, 115] ∧
    dirNameDecode [65, 66, 0, 67, 68, 0, 0, 0] = [65, 66] ∧
    tokNameDecode [65, 66, 0, 67, 68, 0, 0, 0] = [65, 66, 0, 67, 68] := by
  refine ⟨?_, ?_, ?_, ?_⟩ <;> decide

/-- C7 (amended): the two reader paths decode names differently in
general — the directory reader truncates at the first NUL and uppercases,
the tokenizer only trims trailing NULs with no case folding — but they
agree, as the claim intends, on every well-formed name field: a NUL-padded
field whose payload contains no NUL and no lowercase ASCII letter decodes
to the payload on both paths. -/
theorem c7_name_decoding (core : List Nat) (k : Nat)
    (h0 : ∀ b ∈ core, b ≠ 0)
    (hU : ∀ b ∈ core, ¬(97 ≤ b ∧ b ≤ 122)) :
    dirNameDecode (core ++ List.replicate k 0) = core ∧
    tokNameDecode (core ++ List.replicate k 0) = core := by
  constructor
  · unfold dirNameDecode
    rw [findIdx_zero_append core k h0, List.take_left]
    have hid : ∀ b ∈ core, toUpperByte b = b := fun b hb => if_neg (hU b hb)
    calc core.map toUpperByte = core.map id := List.map_congr_left hid
      _ = core := List.map_id core
  · unfold tokNameDecode
    rw [List.reverse_append, List.reverse_replicate,
      dropWhile_zero_replicate_append,
      dropWhile_zero_of_ne core.reverse
        (fun b hb => h0 b (List.mem_reverse.mp hb)),
      List.reverse_reverse]

/-- C7 witness: the amended theorem applied at the payload `"THINGS"`
padded with two NULs. -/
theorem c7_witness :
    dirNameDecode ([84, 72, 73, 78, 71, 83] ++ List.replicate 2 0) =
      [84, 72, 73, 78, 71, 83] ∧
    tokNameDecode ([84, 72, 73, 78, 71, 83] ++ List.replicate 2 0) =
      [84, 72, 73, 78, 71, 83] :=
  c7_name_decoding [84, 72, 73, 78, 71, 83] 2 (by decide) (by decide)

theorem is_map_marker_eq (name : List Nat) :
    is_map_marker name = specMapNamePattern name := by
  unfold is_map_marker
  split
  · rename_i d1 d2
    simp [specMapNamePattern, isAsciiDigit]
  · rename_i d1 d2
    simp [specMapNamePattern, isAsciiDigit]
  · rename_i h1 h2
    symm
    rw [Bool.eq_false_iff]
    intro hsp
    rw [specMapNamePattern] at hsp
    simp only [Bool.or_eq_true, Bool.and_eq_true, decide_eq_true_eq,
      beq_iff_eq] at hsp
    rcases hsp with ⟨⟨⟨hl, ht⟩, hd3⟩, hd4⟩ | ⟨⟨⟨⟨hl, hh0⟩, hd1⟩, hh2⟩, hd3⟩
    · rcases name with _ | ⟨a, _ | ⟨b, _ | ⟨c, _ | ⟨d, _ | ⟨e, _ | ⟨f, tl⟩⟩⟩⟩⟩⟩ <;>
        simp_all
    · rcases name with _ | ⟨a, _ | ⟨b, _ | ⟨c, _ | ⟨d, _ | ⟨e, tl⟩⟩⟩⟩⟩ <;>
        simp_all

/-- C8, counterexample to the claim as stated: the zero-length entry named
`"1M1"` (`49 77 49`) matches the claim's literal map pattern — one ASCII
digit + `M` + one ASCII digit — yet the tokenizer does not emit `MapStart`:
the whole parse fails with the unknown-marker error (the code's pattern
additionally requires a leading `E`). -/
theorem c8_counterexample :
    specClaimMapName [49, 77, 49] = true ∧
    buildTokens c8buf = .failUnknownMarker [49, 77, 49] := by
  constructor
  · decide
  · have htok : tokenizeEntry c8buf 12 = .failUnknownMarker [49, 77, 49] := by
      decide
    have hr : readTokens c8buf 12 28 = .failUnknownMarker [49, 77, 49] := by
      rw [readTokens_step _ _ _ (by norm_num), htok]
      rfl
    have h8 : i32AsUsize (readU32 c8buf 8) = 12 := by decide
    have hde : dirEndOf c8buf = 28 := by decide
    unfold buildTokens
    rw [if_neg (by decide), if_pos (by decide), if_neg (by rw [hde]; decide),
      h8, hde, hr]

/-- C8 (amended): for a zero-length entry's decoded name the tokenizer
emits `MapStart` exactly when the name is `MAP` + two ASCII digits or
`E` + digit + `M` + digit; otherwise `NamespaceStart` exactly when it ends
with `_START`; otherwise `NamespaceEnd` exactly when it ends with `_END`;
and in all remaining cases the unknown-marker error. -/
theorem c8_marker_classification (name : List Nat) :
    (classifyMarker name = .tok (.mapMarker name) ↔
      specMapNamePattern name = true) ∧
    (classifyMarker name = .tok (.markerStart name) ↔
      (specMapNamePattern name = false ∧ is_start_marker name = true)) ∧
    (classifyMarker name = .tok (.markerEnd name) ↔
      (specMapNamePattern name = false ∧ is_start_marker name = false ∧
        is_end_marker name = true)) ∧
    (classifyMarker name = .failUnknownMarker name ↔
      (specMapNamePattern name = false ∧ is_start_marker name = false ∧
        is_end_marker name = false)) := by
  unfold classifyMarker
  rw [is_map_marker_eq]
  cases hs1 : specMapNamePattern name <;>
    cases hs2 : is_start_marker name <;>
    cases hs3 : is_end_marker name <;>
    simp [hs1, hs2, hs3]
